import Mathlib

/-!
Verification of the m4 CLI entry layer of posixutils-rs (src/m4/src/lib.rs):
the `-D name[=value]` argument parser (`ArgumentDefineParser::parse_ref`),
the `Args` record with its `Default` implementation, and the `run` driver
that selects the input source, calls the streaming evaluator, and performs
the end-of-run flushing of diversion buffers and wrap text.

Byte strings (`OsStr` contents, `Vec<u8>` buffers) are modelled as `List Nat`
of byte values.  The evaluator proper (`lexer::process_streaming` together
with `evaluate::evaluate`) lives in modules that are not part of the sources
under verification; `run` is therefore parameterised by an arbitrary
evaluation function of the same shape as the Rust one (initial state and
input source in, immediate stdout bytes and `Result<State>` out), and the
pieces of `evaluate::State` that `run` reads (`divert_buffers`, `m4wrap`,
`exit_error`) are modelled from the spec.
-/

set_option autoImplicit false

namespace M4

/-- Byte strings: the contents of an `OsStr` or of a byte buffer. -/
abbrev ByteStr := List Nat

/-- Byte value of the ASCII character used as the name/value separator
in a `-D name[=value]` argument (the `=` sign, byte 61). -/
def eqByte : Nat := 61

/-- Result type of `ArgumentDefineParser::parse_ref`
(source: struct `ArgumentDefine`, src/m4/src/lib.rs lines 40-44):
a macro name together with an optional value. -/
structure ArgumentDefine where
  name : ByteStr
  value : Option ByteStr
deriving DecidableEq, Repr

/-- Embedding of Rust `value_bytes.splitn(2, |b| *b == b'=')`
(src/m4/src/lib.rs line 60), fully collected into a list of pieces:
at most two pieces, split at the FIRST `=` byte; when the input holds
no `=`, the single piece is the whole input (possibly empty). -/
def splitn2 : ByteStr → List ByteStr
  | [] => [[]]
  | b :: rest =>
    if b = eqByte then [[], rest]
    else
      match splitn2 rest with
      | [] => [[b]]
      | x :: xs => (b :: x) :: xs

/-- Embedding of `ArgumentDefineParser::parse_ref`
(src/m4/src/lib.rs lines 52-72).  The Rust function can only fail by the
`split.next().unwrap()` panicking (it never constructs a `clap::Error`),
so failure is modelled as `none`; `some` is the `Ok` result.  The name is
the first `splitn` piece, the value the optional second piece. -/
def parse_ref (value : ByteStr) : Option ArgumentDefine :=
  match splitn2 value with
  | [] => none
  | name :: rest => some ⟨name, rest.head?⟩

theorem splitn2_ne_nil (l : ByteStr) : splitn2 l ≠ [] := by
  cases l with
  | nil => simp [splitn2]
  | cons b rest =>
    simp only [splitn2]
    by_cases h : b = eqByte
    · simp [h]
    · simp only [h, if_false]
      cases splitn2 rest with
      | nil => simp
      | cons x xs => simp

theorem splitn2_of_not_mem (l : ByteStr) (h : eqByte ∉ l) : splitn2 l = [l] := by
  induction l with
  | nil => rfl
  | cons b rest ih =>
    have hb : b ≠ eqByte := fun hb => h (hb ▸ List.mem_cons_self b rest)
    have hrest : eqByte ∉ rest := fun hr => h (List.mem_cons_of_mem b hr)
    simp only [splitn2, if_neg (fun hb₂ => hb hb₂), ih hrest]

theorem splitn2_append (pre post : ByteStr) (h : eqByte ∉ pre) :
    splitn2 (pre ++ eqByte :: post) = [pre, post] := by
  induction pre with
  | nil => simp [splitn2]
  | cons b pre ih =>
    have hb : b ≠ eqByte := fun hb => h (hb ▸ List.mem_cons_self b pre)
    have hpre : eqByte ∉ pre := fun hr => h (List.mem_cons_of_mem b hr)
    simp only [List.cons_append, splitn2, if_neg (fun hb₂ => hb hb₂), List.append_eq,
      ih hpre]

/-- C8: the `-D` argument parser splits at the FIRST `=` byte: the name is
exactly the bytes before it and the value exactly the bytes after it (the
value may itself contain further `=` bytes); without any `=` byte, the
value is absent. -/
theorem c8_parse_ref_first_eq_split :
    (∀ pre post : ByteStr, eqByte ∉ pre →
      parse_ref (pre ++ eqByte :: post) = some ⟨pre, some post⟩) ∧
    (∀ l : ByteStr, eqByte ∉ l → parse_ref l = some ⟨l, none⟩) := by
  constructor
  · intro pre post h
    simp [parse_ref, splitn2_append pre post h]
  · intro l h
    simp [parse_ref, splitn2_of_not_mem l h]

/-- Witness for C8 at concrete inputs: parsing the bytes of
the string whose characters are a, =, b, =, c yields name a and value
holding the later = sign; parsing an input with no = yields no value. -/
theorem c8_parse_ref_first_eq_split_witness :
    parse_ref [97, 61, 98, 61, 99] = some ⟨[97], some [98, 61, 99]⟩ ∧
    parse_ref [97, 98] = some ⟨[97, 98], none⟩ :=
  ⟨c8_parse_ref_first_eq_split.1 [97] [98, 61, 99] (by decide),
   c8_parse_ref_first_eq_split.2 [97, 98] (by decide)⟩

/-- C9: `parse_ref` is total: every input byte string, the empty string and
strings beginning with an `=` byte included, produces an `Ok` result (the
internal `unwrap` cannot panic because `splitn` always yields at least one
piece); the empty input yields an empty name with no value, and an input
beginning with `=` yields an empty name with the rest as value. -/
theorem c9_parse_ref_total :
    (∀ l : ByteStr, (parse_ref l).isSome = true) ∧
    parse_ref [] = some ⟨[], none⟩ ∧
    parse_ref (61 :: [97]) = some ⟨[], some [97]⟩ := by
  refine ⟨fun l => ?_, by decide, by decide⟩
  unfold parse_ref
  cases hs : splitn2 l with
  | nil => exact absurd hs (splitn2_ne_nil l)
  | cons x xs => rfl

/-- Embedding of the `Args` record (src/m4/src/lib.rs lines 83-138).
`OsString` and `PathBuf` values are byte strings, `Vec` fields are lists.
The field for the `-I, --include` path keeps the source name `include`
spelled `include_path` because `include` is a Lean keyword. -/
structure Args where
  line_synchronization : Bool
  define : List ArgumentDefine
  undefine : List ByteStr
  files : List ByteStr
  freeze_state : Option ByteStr
  reload_state : Option ByteStr
  nesting_limit : Option Nat
  gnu : Bool
  traditional : Bool
  include_path : Option ByteStr
  debug : Option ByteStr
  debugfile : Option ByteStr
  fatal_warning : Bool
  trace : List ByteStr
deriving DecidableEq, Repr

/-- Source `fn default_gnu() -> bool { false }` (lines 140-142). -/
def default_gnu : Bool := false

/-- Source `fn default_traditional() -> bool { true }` (lines 144-146). -/
def default_traditional : Bool := true

/-- Embedding of `impl Default for Args` (src/m4/src/lib.rs lines 148-167). -/
def Args.default : Args where
  line_synchronization := false
  define := []
  undefine := []
  files := []
  freeze_state := none
  reload_state := none
  nesting_limit := none
  gnu := default_gnu
  traditional := default_traditional
  include_path := none
  debug := none
  debugfile := none
  fatal_warning := false
  trace := []

/-- Modelled from the spec: the `error::Error` type of the crate is not among
the sources under verification; `run` only distinguishes the explicit-exit
variant `Error::Exit(code)` from every other error (source I/O failures and
the remaining taxonomy of section 7), so the embedding keeps one
constructor for each of those classes. -/
inductive Error where
  | exit (code : Nat)
  | sourceFailure (msg : ByteStr)
  | other (msg : ByteStr)
deriving DecidableEq, Repr

/-- Modelled from the spec: the rendering `error.to_string()` that `run`
writes to stderr on a non-exit error; its exact text is owned by the error
module, so the embedding only fixes that it is some byte string determined
by the error. -/
def errMsg : Error → ByteStr
  | Error.exit c => [c]
  | Error.sourceFailure m => m
  | Error.other m => m

/-- Modelled from the spec: the pieces of `evaluate::State` that `run`
reads (src/m4/src/lib.rs lines 198-211).  `divert_buffers` is the list of
the non-zero diversion buffers in the iteration order of the Rust `Vec`,
which is ascending diversion id (spec: DiversionStore buffers are flushed
in ascending id order, id 0 never buffers); `m4wrap` is the WrapQueue text
left for end-of-run emission; `exit_error` is the ExitFlag; `macros` is
the user-visible MacroTable as name-body pairs. -/
structure State where
  divert_buffers : List ByteStr
  m4wrap : List ByteStr
  exit_error : Bool
  macros : List (ByteStr × ByteStr)
deriving DecidableEq, Repr

/-- Modelled from the spec: `State::default()` carries no user macro
definitions, no diverted text, no wrap text, and a clear ExitFlag. -/
def State.default : State where
  divert_buffers := []
  m4wrap := []
  exit_error := false
  macros := []

/-- Lookup of a user macro definition in the table (top of the name's
definition stack). -/
def lookupMacro (table : List (ByteStr × ByteStr)) (n : ByteStr) : Option ByteStr :=
  (table.find? fun p => p.1 == n).map Prod.snd

/-- Input source selected by `run`: a named file or standard input. -/
inductive Source where
  | stdin
  | file (path : ByteStr)
deriving DecidableEq, Repr

/-- Embedding of the source selection in `run` (src/m4/src/lib.rs line 175):
`args.files.into_iter().next()` takes the FIRST path when one exists,
otherwise standard input is read. -/
def inputSource (args : Args) : Source :=
  match args.files with
  | [] => Source.stdin
  | f :: _ => Source.file f

/-- Embedding of the initial evaluator state passed by `run`
(src/m4/src/lib.rs lines 177 and 187): `State::default()` in both branches;
no field of `args` is consulted. -/
def runInitState (_args : Args) : State := State.default

/-- Shape of `lexer::process_streaming` with `evaluate::evaluate` as seen
from `run`: from the initial state and the input source it produces the
bytes written immediately to stdout during streaming, and `Result<State>`
(the final state on success, only the error otherwise). -/
abbrev Ev := State → Source → ByteStr × Except Error State

/-- Observable outcome of `run`: all bytes written to stdout, all bytes
written to stderr, and the returned `Result`. -/
structure RunResult where
  stdout : ByteStr
  stderr : ByteStr
  result : Except Error Unit
deriving Repr

/-- Embedding of `run` (src/m4/src/lib.rs lines 169-218), parameterised by
the evaluator.  On `Ok(state)`: every `divert_buffers` entry is written to
stdout in iteration order, then every `m4wrap` entry, and the result is
`Err(Error::Exit(1))` when `state.exit_error` is set, `Ok(())` otherwise.
On `Err(Error::Exit(_))` the error is returned as is; on any other error
its rendering is written to stderr and the error returned.  In the last
two branches nothing further is written to stdout. -/
def run (ev : Ev) (args : Args) : RunResult :=
  let r := ev (runInitState args) (inputSource args)
  let imm := r.1
  match r.2 with
  | Except.ok s =>
    let out := imm ++ s.divert_buffers.flatten ++ s.m4wrap.flatten
    if s.exit_error then ⟨out, [], Except.error (Error.exit 1)⟩
    else ⟨out, [], Except.ok ()⟩
  | Except.error (Error.exit c) => ⟨imm, [], Except.error (Error.exit c)⟩
  | Except.error e => ⟨imm, errMsg e, Except.error e⟩

/-- Evaluator returning a fixed immediate output and a fixed result,
used to probe `run` at every possible evaluation outcome. -/
def constEv (imm : ByteStr) (r : Except Error State) : Ev := fun _ _ => (imm, r)

/-- Argument record carrying the seed request `-D foo=bar`
(bytes of the names foo and bar). -/
def argsDefineFooBar : Args :=
  { Args.default with define := [⟨[102, 111, 111], some [98, 97, 114]⟩] }

/-- C1: the claim requires the `-D` seed definitions and `-U` removals to be
installed in the MacroTable before input is read; in the code `run` passes
`State::default()` to the evaluator and never consults `args.define` or
`args.undefine`, so the whole run is invariant under those fields and the
state handed to the evaluator for `-D foo=bar` still has no entry for foo
(the claim would require its lookup to yield bar). -/
theorem c1_seed_requests_never_installed :
    (∀ (ev : Ev) (a : Args) (d : List ArgumentDefine) (u : List ByteStr),
      run ev { a with define := d, undefine := u } = run ev a) ∧
    runInitState argsDefineFooBar = State.default ∧
    lookupMacro (runInitState argsDefineFooBar).macros [102, 111, 111] = none :=
  ⟨fun _ _ _ _ => rfl, rfl, rfl⟩

/-- C2 (amended): Finalizing happens exactly on the `Ok(state)` path of the
evaluation result: there the diversion buffers and the wrap text are always
appended to stdout, ExitFlag set or not, and the result is
`Err(Error::Exit(1))` when the ExitFlag is set; but when the evaluation
itself returns `Err(Error::Exit(code))`, `run` reports the failure with no
finalizing output at all, since the error branch never sees the state. -/
theorem c2_finalizing_only_on_ok_result :
    (∀ (args : Args) (imm : ByteStr) (s : State),
      run (constEv imm (Except.ok s)) args =
        ⟨imm ++ s.divert_buffers.flatten ++ s.m4wrap.flatten, [],
          if s.exit_error then Except.error (Error.exit 1) else Except.ok ()⟩) ∧
    (∀ (args : Args) (imm : ByteStr) (c : Nat),
      run (constEv imm (Except.error (Error.exit c))) args =
        ⟨imm, [], Except.error (Error.exit c)⟩) := by
  constructor
  · intro args imm s
    cases hse : s.exit_error <;> simp [run, constEv, hse]
  · intro args imm c
    rfl

/-- Internal outcome of an evaluation: the state the engine accumulated
together with the error, if any, it stopped with.  The Rust API projects
this to `Result<State>`, discarding the state whenever an error occurred. -/
structure EngineOutcome where
  immediate : ByteStr
  final : State
  err : Option Error
deriving Repr

/-- Projection of an engine outcome to the `Result<State>` that
`lexer::process_streaming` returns: the accumulated state survives only
when no error occurred. -/
def projectOutcome (o : EngineOutcome) : ByteStr × Except Error State :=
  (o.immediate,
    match o.err with
    | some e => Except.error e
    | none => Except.ok o.final)

/-- Evaluator realising a given engine outcome. -/
def evOfOutcome (o : EngineOutcome) : Ev := fun _ _ => projectOutcome o

/-- Engine outcome of a run in which one wrap entry (byte 65) is pending
and the engine stops with the fatal error `Error::Exit(2)`. -/
def outcomeExitWithWrap : EngineOutcome where
  immediate := []
  final := { divert_buffers := [], m4wrap := [[65]], exit_error := true, macros := [] }
  err := some (Error.exit 2)

/-- Counterexample to C2: a run that ends with the fatal non-I/O error
`Error::Exit(2)` while the engine held pending wrap text writes NOTHING
further to stdout — the wrap byte 65 the claim requires to be appended
before the failure is reported never reaches the final sink. -/
theorem c2_no_finalizing_on_exit_error :
    (run (evOfOutcome outcomeExitWithWrap) Args.default).stdout = [] ∧
    (run (evOfOutcome outcomeExitWithWrap) Args.default).result =
      Except.error (Error.exit 2) ∧
    ¬((run (evOfOutcome outcomeExitWithWrap) Args.default).stdout =
        outcomeExitWithWrap.immediate ++
          outcomeExitWithWrap.final.divert_buffers.flatten ++
          outcomeExitWithWrap.final.m4wrap.flatten) := by
  refine ⟨rfl, rfl, ?_⟩
  decide

/-- C4: on a normal completion (evaluation returns the final state and the
ExitFlag is clear), stdout is the immediate diversion-0 output, followed by
the non-zero diversion buffers in iteration order (ascending id), followed
by the wrap text; `List.flatten` places every buffer exactly once. -/
theorem c4_final_output_order :
    ∀ (args : Args) (imm : ByteStr) (s : State), s.exit_error = false →
      run (constEv imm (Except.ok s)) args =
        ⟨imm ++ s.divert_buffers.flatten ++ s.m4wrap.flatten, [], Except.ok ()⟩ := by
  intro args imm s h
  simp [run, constEv, h]

/-- Final state with two diversion buffers (bytes 66 and 67, ascending id)
and one wrap entry (byte 68), ExitFlag clear. -/
def stateTwoDiversions : State where
  divert_buffers := [[66], [67]]
  m4wrap := [[68]]
  exit_error := false
  macros := []

/-- Witness for C4: with immediate output byte 65, two diversion buffers
and one wrap entry, the final stdout is 65, 66, 67, 68 in that order. -/
theorem c4_final_output_order_witness :
    run (constEv [65] (Except.ok stateTwoDiversions)) Args.default =
      ⟨[65, 66, 67, 68], [], Except.ok ()⟩ :=
  c4_final_output_order Args.default [65] stateTwoDiversions rfl

/-- C5: `run` returns `Ok(())` exactly when the evaluation returned its
final state with the ExitFlag clear; with the ExitFlag set the reported
result is `Err(Error::Exit(1))` and stdout already contains the flushed
diversion buffers and wrap text; any evaluation error is propagated as the
result. -/
theorem c5_exit_status_mapping :
    (∀ (args : Args) (imm : ByteStr) (s : State),
      (run (constEv imm (Except.ok s)) args).result =
          (if s.exit_error then Except.error (Error.exit 1) else Except.ok ()) ∧
        (run (constEv imm (Except.ok s)) args).stdout =
          imm ++ s.divert_buffers.flatten ++ s.m4wrap.flatten) ∧
    (∀ (args : Args) (imm : ByteStr) (e : Error),
      (run (constEv imm (Except.error e)) args).result = Except.error e) := by
  constructor
  · intro args imm s
    cases hse : s.exit_error <;> simp [run, constEv, hse]
  · intro args imm e
    cases e <;> rfl

/-- C6: the claim requires `Args.nesting_limit` to configure the bound the
NestingCounter is checked against; in the code `run` never reads that
field (the evaluator receives `State::default()` and the input source
only), so the whole run is invariant under the requested limit. -/
theorem c6_nesting_limit_never_configured :
    (∀ (ev : Ev) (a : Args) (n m : Option Nat),
      run ev { a with nesting_limit := n } = run ev { a with nesting_limit := m }) ∧
    runInitState { Args.default with nesting_limit := some 5 } = State.default :=
  ⟨fun _ _ _ _ => rfl, rfl⟩

/-- C7: the claim requires the warning-escalation flag to act as a counted
assertion with two levels that promote warnings during evaluation; in the
code `Args.fatal_warning` is a single boolean and `run` never reads it, so
the whole run is invariant under the flag. -/
theorem c7_fatal_warning_never_consulted :
    ∀ (ev : Ev) (a : Args) (b₁ b₂ : Bool),
      run ev { a with fatal_warning := b₁ } = run ev { a with fatal_warning := b₂ } :=
  fun _ _ _ _ => rfl

/-- Fixpoint drain of a wrap queue as claim C3 words it (the queue is
drained to fixpoint, newly registered entries included, rather than being
emitted in a single pass): processing an entry emits its output bytes and
may register further entries (`emit`), newly registered entries are
appended to the pending queue, and draining stops only when the queue is
empty (`fuel` bounds the number of processed entries; the result is the
processed entries in order with the emitted output, `none` on fuel
exhaustion).  Defined from the claim's words, to be compared with the
program's wrap emission in `run`. -/
def drainTrace {α : Type} (emit : α → ByteStr × List α) :
    Nat → List α → Option (List α × ByteStr)
  | _, [] => some ([], [])
  | 0, _ :: _ => none
  | fuel + 1, e :: q =>
    match drainTrace emit fuel (q ++ (emit e).2) with
    | none => none
    | some (p, out) => some (e :: p, (emit e).1 ++ out)

/-- Output of emitting the wrap queue in one single pass, ignoring any
entries registered during emission. -/
def singlePass {α : Type} (emit : α → ByteStr × List α) (q : List α) : ByteStr :=
  (q.map fun e => (emit e).1).flatten

/-- The wrap emission `run` actually performs on one queue entry
(src/m4/src/lib.rs lines 203-205): `write_all` writes the entry's bytes
verbatim to stdout, and no further entry can be registered. -/
def emitVerbatim : ByteStr → ByteStr × List ByteStr := fun w => (w, [])

/-- Emission behaviour positing claim C3's premise at the counterexample
state: emitting the pending entry (byte 65) registers one further entry
whose emission outputs byte 66; any other entry is emitted verbatim. -/
def emitReg : ByteStr → ByteStr × List ByteStr :=
  fun w => if w = [65] then ([65], [[66]]) else (w, [])

/-- Final state whose wrap queue holds one pending entry (byte 65),
ExitFlag clear. -/
def sWrapReg : State where
  divert_buffers := []
  m4wrap := [[65]]
  exit_error := false
  macros := []

/-- Counterexample to C3: at a run ending with the single pending wrap
entry byte 65 whose emission — per the claim's premise, realised by
`emitReg` — registers a further entry outputting byte 66, the claimed
fixpoint drain produces bytes 65 then 66, but the program's final output
is byte 65 alone: `run` (src/m4/src/lib.rs lines 203-205) writes the queue
verbatim in a single pass and nothing can be registered during it. -/
theorem c3_wrap_single_pass_counterexample :
    (run (constEv [] (Except.ok sWrapReg)) Args.default).stdout = [65] ∧
    drainTrace emitReg 2 [[65]] = some ([[65], [66]], [65, 66]) ∧
    ¬((run (constEv [] (Except.ok sWrapReg)) Args.default).stdout = [65, 66]) := by
  refine ⟨rfl, by decide, by decide⟩

theorem singlePass_emitVerbatim (q : List ByteStr) : singlePass emitVerbatim q = q.flatten := by
  show (q.map fun e => (emitVerbatim e).1).flatten = q.flatten
  rw [show (fun e : ByteStr => (emitVerbatim e).1) = id from rfl, List.map_id]

/-- C3 (amended): at end of run the wrap queue is emitted in a single
pass: after the diversion buffers, `run` writes each pending `m4wrap`
entry verbatim to the final sink in queue order — exactly the single-pass
output under `emitVerbatim` — and the emission of an entry registers
nothing, so no newly registered entries exist to drain. -/
theorem c3_wrap_emitted_in_single_pass :
    (∀ (args : Args) (imm : ByteStr) (s : State),
      (run (constEv imm (Except.ok s)) args).stdout =
        imm ++ s.divert_buffers.flatten ++ singlePass emitVerbatim s.m4wrap) ∧
    (∀ w : ByteStr, (emitVerbatim w).2 = []) := by
  constructor
  · intro args imm s
    rw [singlePass_emitVerbatim]
    cases hse : s.exit_error <;> simp [run, constEv, hse]
  · intro w
    rfl

/-- C10: with a non-empty file list `run` processes exactly the first path
(the run result is independent of the remaining paths), and with an empty
file list the selected source is standard input. -/
theorem c10_first_file_only :
    (∀ (ev : Ev) (a : Args) (f : ByteStr) (r : List ByteStr),
      run ev { a with files := f :: r } = run ev { a with files := [f] }) ∧
    (∀ a : Args, inputSource { a with files := [] } = Source.stdin) ∧
    (∀ (a : Args) (f : ByteStr) (r : List ByteStr),
      inputSource { a with files := f :: r } = Source.file f) :=
  ⟨fun _ _ _ _ => rfl, fun _ => rfl, fun _ _ _ => rfl⟩

end M4
